import Mathlib

/-!
Verification development for the EGAP ACC command-plane service.

The service's state lives in an external relational store (tasks, agents,
trace spans) plus a process-wide discovery-status record.  We embed that
state as explicit Lean structures and each HTTP handler / background job as
a pure function on it.  Machine time (`Date.now()`) is passed in as an
explicit `Int` millisecond timestamp; the `crypto.randomUUID()` generator is
modelled as an injective supply of non-empty identifiers indexed by a
counter threaded through the operations; the message-bus publish is
modelled as the list of messages the operation emits.
-/

namespace Egap

/-- Task status column: `PENDING`, `APPROVED` or `REJECTED`. -/
inductive TaskStatus
  | PENDING
  | APPROVED
  | REJECTED
deriving DecidableEq, Repr

/-- Model of the opaque `inputPayload` JSON column.  The only access the
source performs is `(task.inputPayload as any)?.traceId`, so we model just
that key; `traceId = none` models a payload without a `traceId` key (or a
null value there). -/
structure Payload where
  traceId : Option String
deriving DecidableEq, Repr

/-- A row of the Task table.  `createdAt` is a millisecond epoch timestamp;
`inputPayload = none` models a null payload column. -/
structure Task where
  id : String
  description : String
  status : TaskStatus
  inputPayload : Option Payload
  createdAt : Int
  agentId : String
deriving DecidableEq, Repr

/-- A row of the Agent table. -/
structure Agent where
  id : String
  name : String
  role : String
  goal : String
  systemPrompt : String
deriving DecidableEq, Repr

/-- Trace-span status column. -/
inductive SpanStatus
  | OK
  | ERROR
deriving DecidableEq, Repr

/-- Model of the opaque span `metadata` JSON column: the lifecycle handlers
write `{taskId, agentName}`; spans written by other services carry some
other document. -/
inductive SpanMetadata
  | taskMeta (taskId : String) (agentName : String)
  | other (raw : String)
deriving DecidableEq, Repr

/-- A row of the TraceSpan table.  `parentId = none` models a null parent
column. -/
structure TraceSpan where
  id : String
  traceId : String
  parentId : Option String
  service : String
  operation : String
  status : SpanStatus
  durationMs : Int
  metadata : SpanMetadata
  startedAt : Int
deriving DecidableEq, Repr

/-- The external relational store, restricted to the tables the claims
touch. -/
structure Store where
  tasks : List Task
  agents : List Agent
  spans : List TraceSpan
deriving DecidableEq, Repr

/-- Model of `crypto.randomUUID()`: an injective supply of non-empty fresh
identifiers, indexed by the counter threaded through the operations. -/
def freshId (n : Nat) : String :=
  String.mk (List.replicate (n + 1) 'u')

/-- The payload's `traceId` when it is a present, non-empty string — the
values for which `(task.inputPayload as any)?.traceId` is truthy in the
source language (the empty string is falsy); `none` otherwise. -/
def usableTraceId (payload : Option Payload) : Option String :=
  match payload with
  | none => none
  | some p =>
    match p.traceId with
    | none => none
    | some s => if s = "" then none else some s

/-- `const traceId = (task.inputPayload as any)?.traceId || randomUUID()`:
use the payload's truthy `traceId` when there is one, otherwise draw a fresh
identifier (returning the advanced counter). -/
def deriveTraceId (payload : Option Payload) (ctr : Nat) : String × Nat :=
  match usableTraceId payload with
  | some s => (s, ctr)
  | none => (freshId ctr, ctr + 1)

/-- `prisma.task.findUnique`-style lookup by id. -/
def findTask (tasks : List Task) (id : String) : Option Task :=
  tasks.find? (fun t => t.id = id)

/-- The write performed by `prisma.task.update({where: {id}, data: {status}})`:
the matching row gets the new status, every other row is untouched. -/
def setStatus (tasks : List Task) (id : String) (st : TaskStatus) : List Task :=
  tasks.map (fun t => if t.id = id then { t with status := st } else t)

/-- Lookup of the owning agent (the `include: { agent: true }` join). -/
def findAgent (agents : List Agent) (id : String) : Option Agent :=
  agents.find? (fun a => a.id = id)

/-- The structured byte payload of the RESUME message published on approve. -/
structure ResumePayload where
  type : String
  taskId : String
  agentId : String
  traceId : String
deriving DecidableEq, Repr

/-- A message published to the bus: the structured payload plus the
`traceId` attribute carried alongside. -/
structure PubMessage where
  data : ResumePayload
  attrTraceId : String
deriving DecidableEq, Repr

/-- Result of a lifecycle operation: the new store, the returned task row
(merged with its agent), the messages published during the call, and the
advanced fresh-id counter. -/
structure LifecycleResult where
  store : Store
  task : Task
  agent : Agent
  published : List PubMessage
  ctr : Nat
deriving DecidableEq, Repr

/-- `POST /api/tasks/:id/approve`.  `tEntry` is `Date.now()` at entry
(`approveStart`), `tExit` is `Date.now()` at the span write.  Fails with
NotFound when no task row matches (as `prisma.task.update` does); the
status is written unconditionally — no precondition on the current status. -/
def approve (s : Store) (taskId : String) (tEntry tExit : Int) (ctr : Nat) :
    Except String LifecycleResult :=
  match findTask s.tasks taskId with
  | none => Except.error "NotFound"
  | some t0 =>
    match findAgent s.agents t0.agentId with
    | none => Except.error "NotFound"
    | some ag =>
      let t := { t0 with status := TaskStatus.APPROVED }
      let traceId := (deriveTraceId t0.inputPayload ctr).1
      let ctr' := (deriveTraceId t0.inputPayload ctr).2
      let msg : PubMessage :=
        { data :=
            { type := "RESUME", taskId := t.id, agentId := t.agentId
              traceId := traceId }
          attrTraceId := traceId }
      let span : TraceSpan :=
        { id := "", traceId := traceId, parentId := none, service := "acc"
          operation := "approve_task", status := SpanStatus.OK
          durationMs := tExit - tEntry
          metadata := SpanMetadata.taskMeta t.id ag.name, startedAt := tExit }
      Except.ok
        { store :=
            { s with
              tasks := setStatus s.tasks taskId TaskStatus.APPROVED
              spans := s.spans ++ [span] }
          task := t, agent := ag, published := [msg], ctr := ctr' }

/-- `POST /api/tasks/:id/reject`: same unconditional status write, same
traceId derivation and span recording as approve, but no publish and
operation `reject_task`. -/
def reject (s : Store) (taskId : String) (tEntry tExit : Int) (ctr : Nat) :
    Except String LifecycleResult :=
  match findTask s.tasks taskId with
  | none => Except.error "NotFound"
  | some t0 =>
    match findAgent s.agents t0.agentId with
    | none => Except.error "NotFound"
    | some ag =>
      let t := { t0 with status := TaskStatus.REJECTED }
      let traceId := (deriveTraceId t0.inputPayload ctr).1
      let ctr' := (deriveTraceId t0.inputPayload ctr).2
      let span : TraceSpan :=
        { id := "", traceId := traceId, parentId := none, service := "acc"
          operation := "reject_task", status := SpanStatus.OK
          durationMs := tExit - tEntry
          metadata := SpanMetadata.taskMeta t.id ag.name, startedAt := tExit }
      Except.ok
        { store :=
            { s with
              tasks := setStatus s.tasks taskId TaskStatus.REJECTED
              spans := s.spans ++ [span] }
          task := t, agent := ag, published := [], ctr := ctr' }

/-! ### Agent discovery (`discoverAgents` and the `/api/discovery` state) -/

/-- The process-wide `discoveryStatus` singleton. -/
structure DiscoveryStatus where
  lastRun : Option String
  agentsDiscovered : Nat
  agentsSynced : List String
  error : Option String
deriving DecidableEq, Repr

/-- An entry of the registry document's `agents` array. -/
structure CardAgent where
  id : String
  name : String
  role : String
  goal : String
  tools : List String
deriving DecidableEq, Repr

/-- The parsed registry document; `agents = none` models a response whose
`agents` field is missing or not an array. -/
structure AgentCard where
  agents : Option (List CardAgent)
deriving DecidableEq, Repr

/-- Outcome of `fetch` + `res.json()` on the registry URL: an error thrown
by the fetch or the JSON parse, a non-success HTTP response, or a parsed
document. -/
inductive FetchOutcome
  | thrown (msg : String)
  | httpError (status : Nat)
  | ok (card : AgentCard)
deriving DecidableEq, Repr

/-- The Agent row created for a registry entry with no existing
name match. -/
def mkAgent (e : CardAgent) : Agent :=
  { id := "", name := e.name, role := e.role, goal := e.goal
    systemPrompt := "Auto-registered from Agent Card (" ++ e.name ++ ")" }

/-- The `for (const agent of card.agents)` upsert loop.  `storeFail` models
the persistence layer: `storeFail name = true` means `prisma.agent.create`
throws for that row, aborting the loop with the names synced so far (the
source pushes into `agentsSynced` only after a successful create-or-skip).
Returns the agent table, the synced names, and the thrown error if any. -/
def upsertLoop (agents : List Agent) (synced : List String)
    (entries : List CardAgent) (storeFail : String → Bool) :
    List Agent × List String × Option String :=
  match entries with
  | [] => (agents, synced, none)
  | e :: rest =>
    match agents.find? (fun a => a.name = e.name) with
    | some _ => upsertLoop agents (synced ++ [e.name]) rest storeFail
    | none =>
      if storeFail e.name then
        (agents, synced, some ("store failure creating " ++ e.name))
      else
        upsertLoop (agents ++ [mkAgent e]) (synced ++ [e.name]) rest storeFail

/-- One run of `discoverAgents`.  The whole body is wrapped in try/catch, so
the run always returns (never escapes) and every failure ends up in
`error`.  Mirrors the source's mutation order: on an early failure only
`error` is overwritten; once the `agents` array is validated,
`agentsDiscovered`/`agentsSynced`/`error` are overwritten before the upsert
loop runs, and `lastRun` is advanced only after the loop completes. -/
def discoverAgents (st : DiscoveryStatus) (agents : List Agent)
    (fo : FetchOutcome) (storeFail : String → Bool) (now : String) :
    DiscoveryStatus × List Agent :=
  match fo with
  | FetchOutcome.thrown m => ({ st with error := some m }, agents)
  | FetchOutcome.httpError code =>
      ({ st with error := some ("HTTP " ++ toString code ++ " from Agent Card") },
       agents)
  | FetchOutcome.ok card =>
    match card.agents with
    | none =>
        ({ st with error := some "No agents array in Agent Card response" },
         agents)
    | some entries =>
      let st1 : DiscoveryStatus :=
        { st with
          agentsDiscovered := entries.length
          agentsSynced := ([] : List String)
          error := none }
      match upsertLoop agents [] entries storeFail with
      | (agents', synced, none) =>
          ({ st1 with agentsSynced := synced, lastRun := some now }, agents')
      | (agents', synced, some e) =>
          ({ st1 with agentsSynced := synced, error := some e }, agents')

/-- `discoverAgents` did not throw from the registry fetch or validation:
the outcomes on which the source proceeds to the upsert loop are exactly
those that are not early failures. -/
def isEarlyFailure (fo : FetchOutcome) : Bool :=
  match fo with
  | FetchOutcome.thrown _ => true
  | FetchOutcome.httpError _ => true
  | FetchOutcome.ok card => card.agents.isNone

/-- A discovery run against a well-formed registry document on a store that
raises no errors — the setting of the idempotence property. -/
def runDiscovery (st : DiscoveryStatus) (agents : List Agent)
    (entries : List CardAgent) (now : String) : DiscoveryStatus × List Agent :=
  discoverAgents st agents (FetchOutcome.ok { agents := some entries })
    (fun _ => false) now

/-! ### Zombie detection (`GET /api/tasks` and `GET /api/tasks/zombies`) -/

/-- `const ZOMBIE_THRESHOLD_MS = 5 * 60 * 1000`. -/
def ZOMBIE_THRESHOLD_MS : Int := 5 * 60 * 1000

/-- Ascending `createdAt` order (the `orderBy: { createdAt: 'asc' }`
clause). -/
def taskLe (a b : Task) : Prop := a.createdAt ≤ b.createdAt

/-- Descending `createdAt` order (the `orderBy: { createdAt: 'desc' }`
clause). -/
def taskGe (a b : Task) : Prop := b.createdAt ≤ a.createdAt

instance : DecidableRel taskLe :=
  fun a b => inferInstanceAs (Decidable (a.createdAt ≤ b.createdAt))

instance : DecidableRel taskGe :=
  fun a b => inferInstanceAs (Decidable (b.createdAt ≤ a.createdAt))

instance : IsTotal Task taskLe :=
  ⟨fun a b => Int.le_total a.createdAt b.createdAt⟩

instance : IsTrans Task taskLe :=
  ⟨fun _ _ _ h h' => le_trans h h'⟩

instance : IsTotal Task taskGe :=
  ⟨fun a b => Int.le_total b.createdAt a.createdAt⟩

instance : IsTrans Task taskGe :=
  ⟨fun _ _ _ h h' => le_trans h' h⟩

/-- A task as returned by `GET /api/tasks`: the row spread together with
the computed `isZombie` flag. -/
structure AnnotatedTask where
  task : Task
  isZombie : Bool
deriving DecidableEq, Repr

/-- `GET /api/tasks`: the PENDING rows, newest first, each annotated with
`isZombie: now - createdAt > ZOMBIE_THRESHOLD_MS` — an annotation only, no
filtering. -/
def listTasks (tasks : List Task) (now : Int) : List AnnotatedTask :=
  ((tasks.filter (fun t => decide (t.status = TaskStatus.PENDING))).insertionSort
      taskGe).map
    (fun t =>
      { task := t
        isZombie := decide (now - t.createdAt > ZOMBIE_THRESHOLD_MS) })

/-- `GET /api/tasks/zombies`: the rows with `status: 'PENDING'` and
`createdAt: { lt: cutoff }` where `cutoff = now - ZOMBIE_THRESHOLD_MS`,
oldest first. -/
def zombies (tasks : List Task) (now : Int) : List Task :=
  (tasks.filter (fun t =>
      decide (t.status = TaskStatus.PENDING) &&
      decide (t.createdAt < now - ZOMBIE_THRESHOLD_MS))).insertionSort taskLe

/-! ### Trace correlation (`GET /api/traces`) -/

/-- One step of grouping a span into the insertion-ordered `traceMap`:
append to the existing group for its traceId, or start a new group at the
end. -/
def insertSpan (acc : List (String × List TraceSpan)) (s : TraceSpan) :
    List (String × List TraceSpan) :=
  if acc.any (fun p => p.1 = s.traceId) then
    acc.map (fun p => if p.1 = s.traceId then (p.1, p.2 ++ [s]) else p)
  else
    acc ++ [(s.traceId, [s])]

/-- The `traceMap` grouping: first-seen key order, each group keeping its
spans in query order. -/
def groupByTraceId (spans : List TraceSpan) : List (String × List TraceSpan) :=
  spans.foldl insertSpan []

/-- `!s.parentId` in the source: true when `parentId` is null, and also
when it is the empty string (falsy in the source language). -/
def isFalsyParent (s : TraceSpan) : Bool :=
  decide (s.parentId = none) || decide (s.parentId = some "")

/-- `spans.find(s => !s.parentId) || spans[0]`: the first span whose parent
is falsy, falling back to the first span of the group. -/
def rootOf (spans : List TraceSpan) : Option TraceSpan :=
  (spans.find? isFalsyParent).or spans.head?

/-- `[...new Set(xs)]`: deduplicate preserving first-seen order. -/
def dedupFirstSeen (l : List String) : List String :=
  l.foldl (fun acc s => if s ∈ acc then acc else acc ++ [s]) []

/-- A trace summary of the `GET /api/traces` response. -/
structure TraceSummary where
  traceId : String
  rootService : String
  rootOperation : String
  services : List String
  spanCount : Nat
  totalDurationMs : Int
  status : SpanStatus
  startedAt : Int
  spans : List TraceSpan
deriving DecidableEq, Repr

/-- The summary built for one group.  Groups produced by `groupByTraceId`
are never empty, so `rootOf` always yields a root there; the `none` branch
only totalizes the embedding. -/
def mkSummary (tid : String) (spans : List TraceSpan) : Option TraceSummary :=
  match rootOf spans with
  | none => none
  | some root =>
    some
      { traceId := tid
        rootService := root.service
        rootOperation := root.operation
        services := dedupFirstSeen (spans.map (fun s => s.service))
        spanCount := spans.length
        totalDurationMs := root.durationMs
        status :=
          if spans.any (fun s => decide (s.status = SpanStatus.ERROR)) then
            SpanStatus.ERROR
          else SpanStatus.OK
        startedAt := root.startedAt
        spans := spans }

/-- `GET /api/traces`: group the fetched window, truncate to `limit`
distinct traces, and summarize each. -/
def traceSummaries (window : List TraceSpan) (limit : Nat) :
    List TraceSummary :=
  ((groupByTraceId window).take limit).filterMap (fun p => mkSummary p.1 p.2)

/-! ### Reconciliation (`GET /api/reconciliation`) -/

/-- Counts supplied by the external Ingress collaborator. -/
structure IngressCounts where
  totalReceived : Int
  totalPublished : Int
  totalFailed : Int
deriving DecidableEq, Repr

/-- Number of task rows with the given status. -/
def countStatus (tasks : List Task) (st : TaskStatus) : Nat :=
  (tasks.filter (fun t => decide (t.status = st))).length

/-- The `egress` section of the reconciliation report. -/
structure EgressCounts where
  totalTasks : Nat
  approved : Nat
  rejected : Nat
  pending : Nat
deriving DecidableEq, Repr

/-- The `reconciliation` section of the report. -/
structure ReconciliationCounters where
  totalIngress : Int
  totalResolved : Int
  gap : Int
  status : String
deriving DecidableEq, Repr

/-- The reconciliation report (the `cost` section, which no claim touches,
is omitted). -/
structure ReconciliationReport where
  ingress : IngressCounts
  egress : EgressCounts
  reconciliation : ReconciliationCounters
deriving DecidableEq, Repr

/-- Modelled from the spec: the `GET /reconciliation` handler is not among
the provided source files (only its external caller is), so this definition
follows spec §4.4: `ingress` echoes the external collaborator's counts;
`egress` counts tasks by status from the Task Store; `totalIngress =
ingress.totalReceived`, `totalResolved = egress.approved + egress.rejected`,
`gap = totalIngress - totalResolved`, with a deterministic
BALANCED-on-zero-gap label. -/
def reconciliationReport (ing : IngressCounts) (tasks : List Task) :
    ReconciliationReport :=
  let approved := countStatus tasks TaskStatus.APPROVED
  let rejected := countStatus tasks TaskStatus.REJECTED
  let resolved : Int := (approved : Int) + (rejected : Int)
  { ingress := ing
    egress :=
      { totalTasks := tasks.length
        approved := approved
        rejected := rejected
        pending := countStatus tasks TaskStatus.PENDING }
    reconciliation :=
      { totalIngress := ing.totalReceived
        totalResolved := resolved
        gap := ing.totalReceived - resolved
        status := if ing.totalReceived - resolved = 0 then "BALANCED" else "DRIFT" } }

/-! ### Helper lemmas -/

theorem freshId_ne_empty (n : Nat) : freshId n ≠ "" := by
  intro h
  have h2 : List.replicate (n + 1) 'u' = ([] : List Char) :=
    congrArg String.data h
  simp at h2

theorem freshId_inj {m n : Nat} (h : freshId m = freshId n) : m = n := by
  have h2 : List.replicate (m + 1) 'u' = List.replicate (n + 1) 'u' :=
    congrArg String.data h
  have h3 := congrArg List.length h2
  simp at h3
  exact h3

theorem deriveTraceId_of_none {payload : Option Payload}
    (hu : usableTraceId payload = none) (ctr : Nat) :
    deriveTraceId payload ctr = (freshId ctr, ctr + 1) := by
  rw [deriveTraceId, hu]

theorem deriveTraceId_of_some {payload : Option Payload} {s : String}
    (hu : usableTraceId payload = some s) (ctr : Nat) :
    deriveTraceId payload ctr = (s, ctr) := by
  rw [deriveTraceId, hu]

theorem setStatus_no_new_pending {tasks : List Task} {tid : String}
    {st : TaskStatus} (hst : st ≠ TaskStatus.PENDING) :
    ∀ t' ∈ setStatus tasks tid st, t'.status = TaskStatus.PENDING →
      ∃ t ∈ tasks, t.id = t'.id ∧ t.status = TaskStatus.PENDING := by
  intro t' ht' hp
  rw [setStatus, List.mem_map] at ht'
  obtain ⟨t, ht, hft⟩ := ht'
  by_cases h : t.id = tid
  · rw [if_pos h] at hft
    rw [← hft] at hp
    exact absurd hp hst
  · rw [if_neg h] at hft
    subst hft
    exact ⟨t, ht, rfl, hp⟩

theorem approve_ok_elim {s : Store} {tid : String} {tE tX : Int} {ctr : Nat}
    {r : LifecycleResult} (hr : approve s tid tE tX ctr = Except.ok r) :
    ∃ t0 ag,
      findTask s.tasks tid = some t0 ∧
      findAgent s.agents t0.agentId = some ag ∧
      r.store.tasks = setStatus s.tasks tid TaskStatus.APPROVED ∧
      r.store.agents = s.agents ∧
      r.store.spans = s.spans ++
        [{ id := "", traceId := (deriveTraceId t0.inputPayload ctr).1
           parentId := none, service := "acc", operation := "approve_task"
           status := SpanStatus.OK, durationMs := tX - tE
           metadata := SpanMetadata.taskMeta t0.id ag.name, startedAt := tX }] ∧
      r.task = { t0 with status := TaskStatus.APPROVED } ∧
      r.agent = ag ∧
      r.published =
        [{ data := { type := "RESUME", taskId := t0.id, agentId := t0.agentId
                     traceId := (deriveTraceId t0.inputPayload ctr).1 }
           attrTraceId := (deriveTraceId t0.inputPayload ctr).1 }] ∧
      r.ctr = (deriveTraceId t0.inputPayload ctr).2 := by
  cases hT : findTask s.tasks tid with
  | none => simp [approve, hT] at hr
  | some t0 =>
    cases hA : findAgent s.agents t0.agentId with
    | none => simp [approve, hT, hA] at hr
    | some ag =>
      simp only [approve, hT, hA, Except.ok.injEq] at hr
      subst hr
      exact ⟨t0, ag, rfl, hA, rfl, rfl, rfl, rfl, rfl, rfl, rfl⟩

theorem reject_ok_elim {s : Store} {tid : String} {tE tX : Int} {ctr : Nat}
    {r : LifecycleResult} (hr : reject s tid tE tX ctr = Except.ok r) :
    ∃ t0 ag,
      findTask s.tasks tid = some t0 ∧
      findAgent s.agents t0.agentId = some ag ∧
      r.store.tasks = setStatus s.tasks tid TaskStatus.REJECTED ∧
      r.store.agents = s.agents ∧
      r.store.spans = s.spans ++
        [{ id := "", traceId := (deriveTraceId t0.inputPayload ctr).1
           parentId := none, service := "acc", operation := "reject_task"
           status := SpanStatus.OK, durationMs := tX - tE
           metadata := SpanMetadata.taskMeta t0.id ag.name, startedAt := tX }] ∧
      r.task = { t0 with status := TaskStatus.REJECTED } ∧
      r.agent = ag ∧
      r.published = [] ∧
      r.ctr = (deriveTraceId t0.inputPayload ctr).2 := by
  cases hT : findTask s.tasks tid with
  | none => simp [reject, hT] at hr
  | some t0 =>
    cases hA : findAgent s.agents t0.agentId with
    | none => simp [reject, hT, hA] at hr
    | some ag =>
      simp only [reject, hT, hA, Except.ok.injEq] at hr
      subst hr
      exact ⟨t0, ag, rfl, hA, rfl, rfl, rfl, rfl, rfl, rfl, rfl⟩

theorem approve_ok_intro {s : Store} {tid : String} {t0 : Task} {ag : Agent}
    (tE tX : Int) (ctr : Nat) (hT : findTask s.tasks tid = some t0)
    (hA : findAgent s.agents t0.agentId = some ag) :
    ∃ r, approve s tid tE tX ctr = Except.ok r := by
  cases hr : approve s tid tE tX ctr with
  | ok r => exact ⟨r, rfl⟩
  | error e => simp [approve, hT, hA] at hr

/-! ### Claim theorems -/

def exTask1 : Task :=
  { id := "t1", description := "d", status := TaskStatus.REJECTED
    inputPayload := none, createdAt := 0, agentId := "a1" }

def exAgent1 : Agent :=
  { id := "a1", name := "alpha", role := "r", goal := "g", systemPrompt := "p" }

def exStore1 : Store := { tasks := [exTask1], agents := [exAgent1], spans := [] }

/-- Claim C1 counterexample: the claim says a task already in a terminal
status is never switched to the other terminal status, but approving the
REJECTED task `exTask1` switches it to APPROVED (the status write carries
no precondition). -/
theorem terminal_status_switch_counterexample :
    exTask1.status = TaskStatus.REJECTED ∧
    ((approve exStore1 "t1" 0 1 0).toOption.map
        (fun r => r.store.tasks.map Task.status)) =
      some [TaskStatus.APPROVED] ∧
    ((reject exStore1 "t1" 0 1 0).toOption.map
        (fun r => r.task.status)) = some TaskStatus.REJECTED := by
  refine ⟨rfl, by decide, by decide⟩

/-- Claim C1 as amended: no operation ever transitions a task's status back
to PENDING (a task PENDING after approve or reject was already PENDING
before, and discovery and the query endpoints never write task rows at
all); but approve and reject apply their terminal status unconditionally,
so invoking one of them on a task in the other terminal status does switch
it. -/
theorem lifecycle_never_returns_to_pending (s : Store) (tid : String)
    (tE tX : Int) (ctr : Nat) :
    (∀ r, approve s tid tE tX ctr = Except.ok r →
      r.store.tasks = setStatus s.tasks tid TaskStatus.APPROVED ∧
      ∀ t' ∈ r.store.tasks, t'.status = TaskStatus.PENDING →
        ∃ t ∈ s.tasks, t.id = t'.id ∧ t.status = TaskStatus.PENDING) ∧
    (∀ r, reject s tid tE tX ctr = Except.ok r →
      r.store.tasks = setStatus s.tasks tid TaskStatus.REJECTED ∧
      ∀ t' ∈ r.store.tasks, t'.status = TaskStatus.PENDING →
        ∃ t ∈ s.tasks, t.id = t'.id ∧ t.status = TaskStatus.PENDING) := by
  constructor
  · intro r hr
    obtain ⟨t0, ag, _, _, htasks, _⟩ := approve_ok_elim hr
    rw [htasks]
    exact ⟨rfl, setStatus_no_new_pending (by intro h; cases h)⟩
  · intro r hr
    obtain ⟨t0, ag, _, _, htasks, _⟩ := reject_ok_elim hr
    rw [htasks]
    exact ⟨rfl, setStatus_no_new_pending (by intro h; cases h)⟩

def exTask1p : Task :=
  { id := "t1", description := "d", status := TaskStatus.PENDING
    inputPayload := none, createdAt := 0, agentId := "a1" }

def exStore1p : Store :=
  { tasks := [exTask1p], agents := [exAgent1], spans := [] }

theorem lifecycle_never_returns_to_pending_witness :
    ((approve exStore1p "t1" 0 1 0).toOption.map
        (fun r => r.store.tasks)) =
      some (setStatus exStore1p.tasks "t1" TaskStatus.APPROVED) := by
  obtain ⟨r, hr⟩ : ∃ r, approve exStore1p "t1" 0 1 0 = Except.ok r := ⟨_, rfl⟩
  have h :=
    ((lifecycle_never_returns_to_pending exStore1p "t1" 0 1 0).1 r hr).1
  rw [hr]
  exact congrArg some h

/-- Claim C2: the reconciliation report satisfies
`totalIngress = ingress.totalReceived`,
`totalResolved = egress.approved + egress.rejected` (the APPROVED/REJECTED
counts from the Task Store), and `gap = totalIngress − totalResolved`, for
every store state and every set of ingress counts. -/
theorem reconciliation_counters_consistent (ing : IngressCounts)
    (tasks : List Task) :
    (reconciliationReport ing tasks).reconciliation.totalIngress =
      ing.totalReceived ∧
    (reconciliationReport ing tasks).egress.approved =
      countStatus tasks TaskStatus.APPROVED ∧
    (reconciliationReport ing tasks).egress.rejected =
      countStatus tasks TaskStatus.REJECTED ∧
    (reconciliationReport ing tasks).reconciliation.totalResolved =
      ((reconciliationReport ing tasks).egress.approved : Int) +
        ((reconciliationReport ing tasks).egress.rejected : Int) ∧
    (reconciliationReport ing tasks).reconciliation.gap =
      (reconciliationReport ing tasks).reconciliation.totalIngress -
        (reconciliationReport ing tasks).reconciliation.totalResolved :=
  ⟨rfl, rfl, rfl, rfl, rfl⟩

def exTask3 : Task :=
  { id := "t3", description := "d", status := TaskStatus.PENDING
    inputPayload := some { traceId := some "" }, createdAt := 0
    agentId := "a1" }

def exStore3 : Store := { tasks := [exTask3], agents := [exAgent1], spans := [] }

/-- Claim C3 counterexample: `exTask3.inputPayload.traceId` is present (the
empty string), so the claim requires the published `traceId` to equal it;
but the empty string is falsy in `payload?.traceId || randomUUID()`, so the
code publishes a freshly generated, non-empty identifier instead. -/
theorem approve_empty_traceid_counterexample :
    ((findTask exStore3.tasks "t3").map (fun t => t.inputPayload)) =
      some (some { traceId := some "" }) ∧
    ((approve exStore3 "t3" 0 1 0).toOption.map
        (fun r => r.published.map (fun m => m.data.traceId))) =
      some [freshId 0] ∧
    freshId 0 ≠ "" := by
  refine ⟨rfl, by decide, by decide⟩

/-- Claim C3 as amended: approving an existing task sets its status to
APPROVED and publishes exactly one resume signal
`{type: RESUME, taskId, agentId, traceId}` with the `traceId` attribute
alongside, where `traceId` equals `inputPayload.traceId` when that field is
present with a non-empty value, and otherwise (payload null, key absent, or
empty string) is a freshly generated identifier distinct across calls. -/
theorem approve_publishes_one_resume_amended (s : Store) (tid : String)
    (tE tX : Int) (ctr : Nat) (t0 : Task) (r : LifecycleResult)
    (hT : findTask s.tasks tid = some t0)
    (hr : approve s tid tE tX ctr = Except.ok r) :
    r.task.status = TaskStatus.APPROVED ∧
    r.published =
      [{ data :=
           { type := "RESUME", taskId := t0.id, agentId := t0.agentId
             traceId := (deriveTraceId t0.inputPayload ctr).1 }
         attrTraceId := (deriveTraceId t0.inputPayload ctr).1 }] ∧
    (∀ s', usableTraceId t0.inputPayload = some s' →
      (deriveTraceId t0.inputPayload ctr).1 = s') ∧
    (usableTraceId t0.inputPayload = none →
      (deriveTraceId t0.inputPayload ctr).1 = freshId ctr ∧
        freshId ctr ≠ "" ∧ r.ctr = ctr + 1) ∧
    (∀ s2 tid2 tE2 tX2 t2 r2,
      findTask s2.tasks tid2 = some t2 →
      approve s2 tid2 tE2 tX2 r.ctr = Except.ok r2 →
      usableTraceId t0.inputPayload = none →
      usableTraceId t2.inputPayload = none →
      r2.published.map (fun m => m.data.traceId) ≠
        r.published.map (fun m => m.data.traceId)) := by
  obtain ⟨t0', ag, hT', hA, _, _, _, htask, _, hpub, hctr⟩ := approve_ok_elim hr
  rw [hT] at hT'
  injection hT' with ht0
  subst ht0
  refine ⟨by rw [htask], hpub, ?_, ?_, ?_⟩
  · intro s' hu
    rw [deriveTraceId_of_some hu]
  · intro hu
    have hc : r.ctr = ctr + 1 := by rw [hctr, deriveTraceId_of_none hu]
    rw [deriveTraceId_of_none hu]
    exact ⟨rfl, freshId_ne_empty ctr, hc⟩
  · intro s2 tid2 tE2 tX2 t2 r2 hT2 hr2 hu hu2
    obtain ⟨t2', ag2, hT2', _, _, _, _, _, _, hpub2, _⟩ := approve_ok_elim hr2
    rw [hT2] at hT2'
    injection hT2' with ht2
    subst ht2
    have hc : r.ctr = ctr + 1 := by rw [hctr, deriveTraceId_of_none hu]
    rw [hpub, hpub2, hc, deriveTraceId_of_none hu,
      deriveTraceId_of_none hu2]
    have h6 : freshId (ctr + 1) ≠ freshId ctr := by
      intro h5
      have h7 := freshId_inj h5
      omega
    simp [h6]

def exTask3w : Task :=
  { id := "t3w", description := "d", status := TaskStatus.PENDING
    inputPayload := some { traceId := some "ext-1" }, createdAt := 0
    agentId := "a1" }

def exStore3w : Store :=
  { tasks := [exTask3w], agents := [exAgent1], spans := [] }

theorem approve_publishes_one_resume_amended_witness :
    ((approve exStore3w "t3w" 0 1 0).toOption.map
        (fun r => r.published.map (fun m => m.data.traceId))) =
      some ["ext-1"] := by
  obtain ⟨r, hr⟩ : ∃ r, approve exStore3w "t3w" 0 1 0 = Except.ok r := ⟨_, rfl⟩
  have h :=
    approve_publishes_one_resume_amended exStore3w "t3w" 0 1 0 exTask3w r
      (by decide) hr
  rw [hr]
  rw [Except.toOption, Option.map]
  rw [h.2.1]
  rfl

/-- Claim C4: rejecting an existing task sets its status to REJECTED,
publishes nothing to the message bus, and performs the same traceId
derivation and span recording as approve: service `acc`, `durationMs`
measured from entry to the span write, metadata `{taskId, agentName}` (the
recorded span agrees with the one approve would record in traceId, service,
duration and metadata; only the operation label differs). -/
theorem reject_sets_rejected_no_publish (s : Store) (tid : String)
    (tE tX : Int) (ctr : Nat) (t0 : Task) (r : LifecycleResult)
    (hT : findTask s.tasks tid = some t0)
    (hr : reject s tid tE tX ctr = Except.ok r) :
    r.task.status = TaskStatus.REJECTED ∧
    r.published = [] ∧
    findAgent s.agents t0.agentId = some r.agent ∧
    r.store.spans =
      s.spans ++
        [{ id := "", traceId := (deriveTraceId t0.inputPayload ctr).1
           parentId := none, service := "acc", operation := "reject_task"
           status := SpanStatus.OK, durationMs := tX - tE
           metadata := SpanMetadata.taskMeta t0.id r.agent.name
           startedAt := tX }] ∧
    (∀ ra, approve s tid tE tX ctr = Except.ok ra →
      r.store.spans.map
          (fun sp => (sp.traceId, sp.service, sp.durationMs, sp.metadata)) =
        ra.store.spans.map
          (fun sp => (sp.traceId, sp.service, sp.durationMs, sp.metadata))) := by
  obtain ⟨t0', ag, hT', hA, _, _, hspans, htask, hagent, hpub, _⟩ :=
    reject_ok_elim hr
  rw [hT] at hT'
  injection hT' with ht0
  subst ht0
  subst hagent
  refine ⟨by rw [htask], hpub, hA, hspans, ?_⟩
  intro ra hra
  obtain ⟨ta, aga, hTa, hAa, _, _, hspansa, _, _, _, _⟩ := approve_ok_elim hra
  rw [hT] at hTa
  injection hTa with hta
  subst hta
  rw [hA] at hAa
  injection hAa with haga
  subst haga
  rw [hspans, hspansa]
  simp

def exTask4 : Task :=
  { id := "t4", description := "d", status := TaskStatus.PENDING
    inputPayload := none, createdAt := 0, agentId := "a1" }

def exStore4 : Store := { tasks := [exTask4], agents := [exAgent1], spans := [] }

theorem reject_sets_rejected_no_publish_witness :
    ((reject exStore4 "t4" 0 1 0).toOption.map
        (fun r => (r.task.status, r.published))) =
      some (TaskStatus.REJECTED, ([] : List PubMessage)) := by
  obtain ⟨r, hr⟩ : ∃ r, reject exStore4 "t4" 0 1 0 = Except.ok r := ⟨_, rfl⟩
  have h :=
    reject_sets_rejected_no_publish exStore4 "t4" 0 1 0 exTask4 r
      (by decide) hr
  rw [hr]
  rw [Except.toOption, Option.map]
  rw [h.1, h.2.1]

/-- Claim C10: for a task whose payload is null, lacks a `traceId` key, or
carries an empty-string `traceId`, approve and reject still succeed (the
optional-chaining access never faults) and use a fresh, non-empty generated
identifier as the operation's traceId, both on the bus message (payload and
attribute) and in the recorded span. -/
theorem falsy_payload_traceid_safe (s : Store) (tid : String)
    (tE tX : Int) (ctr : Nat) (t0 : Task)
    (hT : findTask s.tasks tid = some t0)
    (hP : t0.inputPayload = none ∨
      ∃ p, t0.inputPayload = some p ∧
        (p.traceId = none ∨ p.traceId = some "")) :
    usableTraceId t0.inputPayload = none ∧
    freshId ctr ≠ "" ∧
    (∀ ag, findAgent s.agents t0.agentId = some ag →
      ∃ r, approve s tid tE tX ctr = Except.ok r) ∧
    (∀ r, approve s tid tE tX ctr = Except.ok r →
      r.published.map (fun m => m.data.traceId) = [freshId ctr] ∧
      r.published.map (fun m => m.attrTraceId) = [freshId ctr] ∧
      r.store.spans.map TraceSpan.traceId =
        s.spans.map TraceSpan.traceId ++ [freshId ctr]) ∧
    (∀ r, reject s tid tE tX ctr = Except.ok r →
      r.store.spans.map TraceSpan.traceId =
        s.spans.map TraceSpan.traceId ++ [freshId ctr]) := by
  have hu : usableTraceId t0.inputPayload = none := by
    rcases hP with h | ⟨p, hp, h | h⟩
    · simp [usableTraceId, h]
    · simp [usableTraceId, hp, h]
    · simp [usableTraceId, hp, h]
  have hd : (deriveTraceId t0.inputPayload ctr).1 = freshId ctr := by
    rw [deriveTraceId_of_none hu]
  refine ⟨hu, freshId_ne_empty ctr, ?_, ?_, ?_⟩
  · intro ag hA
    exact approve_ok_intro tE tX ctr hT hA
  · intro r hr
    obtain ⟨t0', ag, hT', _, _, _, hspans, _, _, hpub, _⟩ := approve_ok_elim hr
    rw [hT] at hT'
    injection hT' with ht0
    subst ht0
    rw [hpub, hspans, hd]
    simp
  · intro r hr
    obtain ⟨t0', ag, hT', _, _, _, hspans, _, _, _, _⟩ := reject_ok_elim hr
    rw [hT] at hT'
    injection hT' with ht0
    subst ht0
    rw [hspans, hd]
    simp

theorem falsy_payload_traceid_safe_witness :
    ((approve exStore4 "t4" 0 1 0).toOption.map
        (fun r => r.published.map (fun m => m.data.traceId))) =
      some [freshId 0] ∧ freshId 0 ≠ "" := by
  obtain ⟨r, hr⟩ : ∃ r, approve exStore4 "t4" 0 1 0 = Except.ok r := ⟨_, rfl⟩
  have h :=
    falsy_payload_traceid_safe exStore4 "t4" 0 1 0 exTask4 (by decide)
      (Or.inl (by decide))
  refine ⟨?_, h.2.1⟩
  have h4 := (h.2.2.2.1 r hr).1
  rw [hr]
  rw [Except.toOption, Option.map]
  rw [h4]

/-- Claim C7: every task returned by `GET /api/tasks` is annotated
`isZombie = true` iff its age strictly exceeds the 5-minute threshold —
false at exactly 5:00 (300000 ms), true at 5:01 (301000 ms) — and the
annotation filters nothing: the list has exactly the PENDING rows. -/
theorem tasks_isZombie_flag (tasks : List Task) (now : Int) :
    (∀ a ∈ listTasks tasks now,
      (a.isZombie = true ↔ now - a.task.createdAt > ZOMBIE_THRESHOLD_MS) ∧
      (now - a.task.createdAt = 300000 → a.isZombie = false) ∧
      (now - a.task.createdAt = 301000 → a.isZombie = true)) ∧
    (listTasks tasks now).length =
      (tasks.filter (fun t => decide (t.status = TaskStatus.PENDING))).length ∧
    (∀ t ∈ tasks, t.status = TaskStatus.PENDING →
      ∃ a ∈ listTasks tasks now, a.task = t) := by
  refine ⟨?_, ?_, ?_⟩
  · intro a ha
    rw [listTasks, List.mem_map] at ha
    obtain ⟨t, _, rfl⟩ := ha
    refine ⟨by simp, ?_, ?_⟩
    · intro h
      simp only
      rw [h]
      decide
    · intro h
      simp only
      rw [h]
      decide
  · rw [listTasks]
    rw [List.length_map, List.length_insertionSort]
  · intro t ht hp
    refine ⟨{ task := t
              isZombie := decide (now - t.createdAt > ZOMBIE_THRESHOLD_MS) },
            ?_, rfl⟩
    rw [listTasks, List.mem_map]
    refine ⟨t, ?_, rfl⟩
    rw [List.mem_insertionSort, List.mem_filter]
    exact ⟨ht, by simp [hp]⟩

def exStatus5 : DiscoveryStatus :=
  { lastRun := some "2024-01-01T00:00:00Z", agentsDiscovered := 2
    agentsSynced := ["a", "b"], error := none }

def exCard5 : AgentCard :=
  { agents :=
      some [{ id := "c1", name := "c", role := "r", goal := "g", tools := [] }] }

/-- Claim C5 counterexample: the claim covers "a thrown error at any
point", but an error thrown inside the upsert loop (here the store failing
to create agent "c") happens after `agentsDiscovered` and `agentsSynced`
were already overwritten: the prior run's `agentsDiscovered = 2` becomes 1
and `agentsSynced = ["a","b"]` becomes `[]`, so those fields are not left
unchanged (while `lastRun` is indeed not advanced and `error` is set). -/
theorem discovery_loop_failure_counterexample :
    exStatus5.agentsDiscovered = 2 ∧
    exStatus5.agentsSynced = ["a", "b"] ∧
    (discoverAgents exStatus5 [] (FetchOutcome.ok exCard5)
        (fun n => decide (n = "c")) "2024-01-02T00:00:00Z").1.agentsDiscovered
      = 1 ∧
    (discoverAgents exStatus5 [] (FetchOutcome.ok exCard5)
        (fun n => decide (n = "c")) "2024-01-02T00:00:00Z").1.agentsSynced
      = [] ∧
    ((discoverAgents exStatus5 [] (FetchOutcome.ok exCard5)
        (fun n => decide (n = "c")) "2024-01-02T00:00:00Z").1.error).isSome
      = true ∧
    (discoverAgents exStatus5 [] (FetchOutcome.ok exCard5)
        (fun n => decide (n = "c")) "2024-01-02T00:00:00Z").1.lastRun
      = exStatus5.lastRun := by
  decide

/-- Claim C5 as amended: for every failure detected before the upsert loop
(a thrown fetch/parse error, a non-success HTTP response, or a payload
without an `agents` array) the prior run's fields other than `error` are
left unchanged, `error` is overwritten and the agent table is untouched;
for every run that records an error — including a store error thrown inside
the upsert loop, which does overwrite `agentsDiscovered`/`agentsSynced`
with the partial run — `lastRun` is never advanced; and no failure escapes
`discoverAgents` (it is a total function into an updated status). -/
theorem discovery_failure_preserves_status_amended (st : DiscoveryStatus)
    (agents : List Agent) (fo : FetchOutcome) (storeFail : String → Bool)
    (now : String) :
    (isEarlyFailure fo = true →
      (discoverAgents st agents fo storeFail now).2 = agents ∧
      (discoverAgents st agents fo storeFail now).1.agentsDiscovered =
        st.agentsDiscovered ∧
      (discoverAgents st agents fo storeFail now).1.agentsSynced =
        st.agentsSynced ∧
      (discoverAgents st agents fo storeFail now).1.lastRun = st.lastRun ∧
      ((discoverAgents st agents fo storeFail now).1.error).isSome = true) ∧
    (((discoverAgents st agents fo storeFail now).1.error).isSome = true →
      (discoverAgents st agents fo storeFail now).1.lastRun = st.lastRun) := by
  cases fo with
  | thrown m => exact ⟨fun _ => ⟨rfl, rfl, rfl, rfl, rfl⟩, fun _ => rfl⟩
  | httpError c => exact ⟨fun _ => ⟨rfl, rfl, rfl, rfl, rfl⟩, fun _ => rfl⟩
  | ok card =>
    cases hca : card.agents with
    | none =>
      constructor
      · intro _
        simp [discoverAgents, hca]
      · intro _
        simp [discoverAgents, hca]
    | some entries =>
      rcases hres : upsertLoop agents [] entries storeFail with ⟨ag', synced, err⟩
      constructor
      · intro hearly
        rw [isEarlyFailure, hca] at hearly
        simp at hearly
      · intro herr
        cases err with
        | none => simp [discoverAgents, hca, hres] at herr
        | some e => simp [discoverAgents, hca, hres]

theorem discovery_failure_preserves_status_amended_witness :
    (discoverAgents exStatus5 [] (FetchOutcome.httpError 500)
        (fun _ => false) "x").1.agentsSynced = exStatus5.agentsSynced ∧
    (discoverAgents exStatus5 [] (FetchOutcome.httpError 500)
        (fun _ => false) "x").1.lastRun = exStatus5.lastRun ∧
    (discoverAgents exStatus5 [] (FetchOutcome.httpError 500)
        (fun _ => false) "x").2 = [] := by
  have h :=
    (discovery_failure_preserves_status_amended exStatus5 []
        (FetchOutcome.httpError 500) (fun _ => false) "x").1 (by decide)
  exact ⟨h.2.2.1, h.2.2.2.1, h.1⟩

theorem upsertLoop_noFail (entries : List CardAgent) :
    ∀ (agents : List Agent) (synced : List String),
      (upsertLoop agents synced entries (fun _ => false)).2.2 = none ∧
      (upsertLoop agents synced entries (fun _ => false)).2.1 =
        synced ++ entries.map (fun e => e.name) ∧
      ∃ created, (upsertLoop agents synced entries (fun _ => false)).1 =
        agents ++ created := by
  induction entries with
  | nil =>
    intro agents synced
    exact ⟨rfl, by simp [upsertLoop], [], by simp [upsertLoop]⟩
  | cons e rest ih =>
    intro agents synced
    cases hf : agents.find? (fun a => a.name = e.name) with
    | some a =>
      simp only [upsertLoop, hf]
      obtain ⟨h1, h2, created, h3⟩ := ih agents (synced ++ [e.name])
      exact ⟨h1, by rw [h2]; simp, created, h3⟩
    | none =>
      simp only [upsertLoop, hf, Bool.false_eq_true, if_false]
      obtain ⟨h1, h2, created, h3⟩ := ih (agents ++ [mkAgent e]) (synced ++ [e.name])
      exact ⟨h1, by rw [h2]; simp, mkAgent e :: created, by rw [h3]; simp⟩

theorem upsertLoop_names_present (entries : List CardAgent) :
    ∀ (agents : List Agent) (synced : List String), ∀ e ∈ entries,
      ∃ a ∈ (upsertLoop agents synced entries (fun _ => false)).1,
        a.name = e.name := by
  induction entries with
  | nil =>
    intro agents synced e he
    cases he
  | cons e0 rest ih =>
    intro agents synced e he
    cases hf : agents.find? (fun a => a.name = e0.name) with
    | some a =>
      simp only [upsertLoop, hf]
      rcases List.mem_cons.mp he with he0 | hrest
      · subst he0
        have ha : a ∈ agents := List.mem_of_find?_eq_some hf
        have hname : a.name = e.name := by
          have := List.find?_some hf
          simpa using this
        obtain ⟨_, _, created, h3⟩ :=
          upsertLoop_noFail rest agents (synced ++ [e.name])
        exact ⟨a, by rw [h3]; exact List.mem_append_left _ ha, hname⟩
      · exact ih agents (synced ++ [e0.name]) e hrest
    | none =>
      simp only [upsertLoop, hf, Bool.false_eq_true, if_false]
      rcases List.mem_cons.mp he with he0 | hrest
      · subst he0
        obtain ⟨_, _, created, h3⟩ :=
          upsertLoop_noFail rest (agents ++ [mkAgent e]) (synced ++ [e.name])
        refine ⟨mkAgent e, ?_, rfl⟩
        rw [h3]
        exact List.mem_append_left _ (List.mem_append_right _ (by simp))
      · exact ih (agents ++ [mkAgent e0]) (synced ++ [e0.name]) e hrest

theorem upsertLoop_all_present (entries : List CardAgent) :
    ∀ (agents : List Agent) (synced : List String),
      (∀ e ∈ entries, ∃ a ∈ agents, a.name = e.name) →
      (upsertLoop agents synced entries (fun _ => false)).1 = agents := by
  induction entries with
  | nil =>
    intro agents synced _
    rfl
  | cons e0 rest ih =>
    intro agents synced h
    obtain ⟨a, ha, hname⟩ := h e0 (List.mem_cons_self _ _)
    have hf : (agents.find? (fun a => a.name = e0.name)).isSome := by
      rw [List.find?_isSome]
      exact ⟨a, ha, by simp [hname]⟩
    obtain ⟨a', hf'⟩ := Option.isSome_iff_exists.mp hf
    simp only [upsertLoop, hf']
    exact ih agents (synced ++ [e0.name])
      (fun e he => h e (List.mem_cons_of_mem _ he))

theorem runDiscovery_eq (st : DiscoveryStatus) (agents : List Agent)
    (entries : List CardAgent) (now : String) :
    (runDiscovery st agents entries now).2 =
      (upsertLoop agents [] entries (fun _ => false)).1 ∧
    (runDiscovery st agents entries now).1.agentsSynced =
      entries.map (fun e => e.name) := by
  obtain ⟨h1, h2, created, h3⟩ := upsertLoop_noFail entries agents []
  rcases hres : upsertLoop agents [] entries (fun _ => false) with ⟨ag', synced, err⟩
  rw [hres] at h1 h2
  simp only at h1 h2
  subst h1
  subst h2
  constructor
  · simp [runDiscovery, discoverAgents, hres]
  · simp [runDiscovery, discoverAgents, hres]

/-- Claim C6: discovery upsert is idempotent — running discovery twice with
an unchanged registry document (against a store that raises no errors)
yields the same agent table (hence the same size, no duplicates created)
and the same `agentsSynced` contents, and every pre-existing agent row is
left in place unmodified (the run only appends newly created rows). -/
theorem discovery_upsert_idempotent (st : DiscoveryStatus)
    (agents : List Agent) (entries : List CardAgent) (now1 now2 : String) :
    (runDiscovery (runDiscovery st agents entries now1).1
        (runDiscovery st agents entries now1).2 entries now2).2 =
      (runDiscovery st agents entries now1).2 ∧
    (runDiscovery (runDiscovery st agents entries now1).1
        (runDiscovery st agents entries now1).2 entries now2).2.length =
      (runDiscovery st agents entries now1).2.length ∧
    (runDiscovery (runDiscovery st agents entries now1).1
        (runDiscovery st agents entries now1).2 entries now2).1.agentsSynced =
      (runDiscovery st agents entries now1).1.agentsSynced ∧
    ∃ created, (runDiscovery st agents entries now1).2 = agents ++ created := by
  obtain ⟨hag1, hsync1⟩ := runDiscovery_eq st agents entries now1
  obtain ⟨hag2, hsync2⟩ :=
    runDiscovery_eq (runDiscovery st agents entries now1).1
      (runDiscovery st agents entries now1).2 entries now2
  have hpresent : ∀ e ∈ entries,
      ∃ a ∈ (runDiscovery st agents entries now1).2, a.name = e.name := by
    intro e he
    rw [hag1]
    exact upsertLoop_names_present entries agents [] e he
  have h2 : (runDiscovery (runDiscovery st agents entries now1).1
      (runDiscovery st agents entries now1).2 entries now2).2 =
        (runDiscovery st agents entries now1).2 := by
    rw [hag2]
    exact upsertLoop_all_present entries _ [] hpresent
  refine ⟨h2, by rw [h2], by rw [hsync1, hsync2], ?_⟩
  obtain ⟨_, _, created, h3⟩ := upsertLoop_noFail entries agents []
  exact ⟨created, by rw [hag1, h3]⟩

def exTask7 : Task :=
  { id := "t7", description := "stuck", status := TaskStatus.PENDING
    inputPayload := none, createdAt := 0, agentId := "a7" }

def exTasks7 : List Task := [exTask7]

theorem tasks_isZombie_flag_witness :
    (⟨exTask7, true⟩ : AnnotatedTask) ∈ listTasks exTasks7 301000 ∧
    ((⟨exTask7, true⟩ : AnnotatedTask).isZombie = true ↔
      (301000 : Int) - exTask7.createdAt > ZOMBIE_THRESHOLD_MS) :=
  ⟨by decide,
   ((tasks_isZombie_flag exTasks7 301000).1 ⟨exTask7, true⟩ (by decide)).1⟩

/-- Claim C8: `GET /api/tasks/zombies` returns exactly the PENDING tasks
strictly older than `now − threshold` — never a task with another status —
sorted ascending by `createdAt`. -/
theorem zombies_only_stale_pending_sorted (tasks : List Task) (now : Int) :
    (∀ t ∈ zombies tasks now,
      t.status = TaskStatus.PENDING ∧
        t.createdAt < now - ZOMBIE_THRESHOLD_MS) ∧
    (∀ t ∈ tasks, t.status = TaskStatus.PENDING →
      t.createdAt < now - ZOMBIE_THRESHOLD_MS → t ∈ zombies tasks now) ∧
    List.Sorted taskLe (zombies tasks now) := by
  refine ⟨?_, ?_, ?_⟩
  · intro t ht
    rw [zombies, List.mem_insertionSort, List.mem_filter] at ht
    have h2 := ht.2
    simp only [Bool.and_eq_true, decide_eq_true_eq] at h2
    exact h2
  · intro t ht h1 h2
    rw [zombies, List.mem_insertionSort, List.mem_filter]
    exact ⟨ht, by simp [h1, h2]⟩
  · exact List.sorted_insertionSort taskLe _

def exTask8old : Task :=
  { id := "t8a", description := "old", status := TaskStatus.PENDING
    inputPayload := none, createdAt := 0, agentId := "a8" }

def exTask8new : Task :=
  { id := "t8b", description := "new", status := TaskStatus.PENDING
    inputPayload := none, createdAt := 999000, agentId := "a8" }

def exTasks8 : List Task := [exTask8new, exTask8old]

theorem zombies_only_stale_pending_sorted_witness :
    exTask8old ∈ zombies exTasks8 1000000 ∧
    exTask8old.status = TaskStatus.PENDING :=
  ⟨(zombies_only_stale_pending_sorted exTasks8 1000000).2.1 exTask8old
      (by decide) (by decide) (by decide),
   by decide⟩

def exSpanA : TraceSpan :=
  { id := "s1", traceId := "tr", parentId := some "", service := "svcA"
    operation := "opA", status := SpanStatus.OK, durationMs := 7
    metadata := SpanMetadata.other "x", startedAt := 10 }

def exSpanB : TraceSpan :=
  { id := "s2", traceId := "tr", parentId := none, service := "svcB"
    operation := "opB", status := SpanStatus.OK, durationMs := 9
    metadata := SpanMetadata.other "y", startedAt := 9 }

def exWindow9 : List TraceSpan := [exSpanA, exSpanB]

/-- Claim C9 counterexample: in the window `[exSpanA, exSpanB]` the first
span with a null `parentId` is `exSpanB` (`durationMs = 9`), so the claim
requires the summary's root — and hence `totalDurationMs` — to come from
it; but `!s.parentId` is also true for `exSpanA`'s empty-string parent, so
the code picks `exSpanA` as root and reports `totalDurationMs = 7` and
`rootOperation = "opA"`. -/
theorem trace_summary_null_root_counterexample :
    exWindow9.find? (fun sp => decide (sp.parentId = none)) = some exSpanB ∧
    exSpanB.durationMs = 9 ∧
    ((traceSummaries exWindow9 20).map (fun sm => sm.totalDurationMs)) = [7] ∧
    ((traceSummaries exWindow9 20).map (fun sm => sm.rootOperation)) = ["opA"] := by
  refine ⟨by decide, rfl, by decide, by decide⟩

/-- Claim C9 as amended: every trace summary is built from a root span that
is the first span of the trace's span set (in query order) whose `parentId`
is null or the empty string (both are falsy in the source's `!s.parentId`
test), falling back to the first span in query order when no such span
exists; its `status` is ERROR iff some span of the trace has status ERROR,
else OK; and its `totalDurationMs` is the root span's own `durationMs`, not
a sum across spans. -/
theorem trace_summary_root_status_amended (window : List TraceSpan)
    (limit : Nat) (sm : TraceSummary)
    (hm : sm ∈ traceSummaries window limit) :
    ∃ tid ss r,
      (tid, ss) ∈ (groupByTraceId window).take limit ∧
      sm.spans = ss ∧
      rootOf ss = some r ∧
      sm.totalDurationMs = r.durationMs ∧
      sm.rootService = r.service ∧
      sm.rootOperation = r.operation ∧
      (sm.status = SpanStatus.ERROR ↔
        ∃ sp ∈ ss, sp.status = SpanStatus.ERROR) ∧
      ((∃ sp ∈ ss, isFalsyParent sp = true) →
        ∃ pre post, ss = pre ++ r :: post ∧ isFalsyParent r = true ∧
          ∀ sp ∈ pre, isFalsyParent sp = false) ∧
      ((∀ sp ∈ ss, isFalsyParent sp = false) → ss.head? = some r) := by
  rw [traceSummaries, List.mem_filterMap] at hm
  obtain ⟨⟨tid, ss⟩, hmem, hmk⟩ := hm
  cases hroot : rootOf ss with
  | none =>
    rw [mkSummary, hroot] at hmk
    cases hmk
  | some root =>
    rw [mkSummary, hroot] at hmk
    injection hmk with hsm
    subst hsm
    refine ⟨tid, ss, root, hmem, rfl, hroot, rfl, rfl, rfl, ?_, ?_, ?_⟩
    · show (if ss.any (fun s => decide (s.status = SpanStatus.ERROR)) then
          SpanStatus.ERROR else SpanStatus.OK) = SpanStatus.ERROR ↔ _
      cases hany : ss.any (fun s => decide (s.status = SpanStatus.ERROR)) with
      | true =>
        simp only [hany, if_true]
        obtain ⟨sp, hsp, hsperr⟩ := List.any_eq_true.mp hany
        exact ⟨fun _ => ⟨sp, hsp, by simpa using hsperr⟩, fun _ => by simp⟩
      | false =>
        simp only [hany, Bool.false_eq_true, if_false]
        constructor
        · intro h
          simp at h
        · rintro ⟨sp, hsp, herr⟩
          have hcontra : ss.any (fun s => decide (s.status = SpanStatus.ERROR))
              = true :=
            List.any_eq_true.mpr ⟨sp, hsp, by simp [herr]⟩
          rw [hany] at hcontra
          simp at hcontra
    · rintro ⟨sp, hsp, hf⟩
      have hfind : ∃ a, ss.find? isFalsyParent = some a := by
        rw [← Option.isSome_iff_exists, List.find?_isSome]
        exact ⟨sp, hsp, hf⟩
      obtain ⟨a, hfa⟩ := hfind
      have heq : rootOf ss = some a := by
        rw [rootOf, hfa]
        rfl
      rw [hroot] at heq
      injection heq with ha
      subst ha
      obtain ⟨hp, pre, post, hss, hall⟩ := List.find?_eq_some.mp hfa
      refine ⟨pre, post, hss, hp, ?_⟩
      intro sp2 hsp2
      have := hall sp2 hsp2
      simpa using this
    · intro hnone
      have hfind : ss.find? isFalsyParent = none :=
        List.find?_eq_none.mpr (fun x hx => by simp [hnone x hx])
      rw [rootOf, hfind] at hroot
      simpa using hroot

def exSummary9 : TraceSummary :=
  { traceId := "tr", rootService := "svcB", rootOperation := "opB"
    services := ["svcB"], spanCount := 1, totalDurationMs := 9
    status := SpanStatus.OK, startedAt := 9, spans := [exSpanB] }

theorem trace_summary_root_status_amended_witness :
    exSummary9 ∈ traceSummaries [exSpanB] 20 ∧
    (exSummary9.status = SpanStatus.ERROR ↔
      ∃ sp ∈ exSummary9.spans, sp.status = SpanStatus.ERROR) := by
  have hmem : exSummary9 ∈ traceSummaries [exSpanB] 20 := by decide
  obtain ⟨tid, ss, r, _, hspans, _, _, _, _, hiff, _, _⟩ :=
    trace_summary_root_status_amended [exSpanB] 20 exSummary9 hmem
  refine ⟨hmem, ?_⟩
  rw [hspans]
  exact hiff

end Egap
